import Mathlib

/-!
Verification development for the CodeChat AI browser client
(repository-loading / chat front-end, `app.js`).

The client is single-threaded and event-driven; every network call is
modelled by passing the call's outcome (typed per the service interface of
the specification) into the handler as an explicit argument, so each
handler becomes a total function from (state, outcome) to (state, emitted
events).  DOM state touched by the code (input values, disabled flags,
status indicator, message list, overlay, stats) is carried in an explicit
`AppState` record; the append-only message list models the `#messages`
container, with the typing indicator as an identified entry.
-/

/-- The set of characters stripped by JavaScript `String.prototype.trim`
(whitespace and line terminators; the common members are listed). -/
def isJsWhitespace (c : Char) : Bool :=
  c = ' ' || c = '\t' || c = '\n' || c = '\r' || c = '\x0b' || c = '\x0c' ||
  c = '\u00A0' || c = '\uFEFF'

/-- JavaScript `String.prototype.trim`: strip leading and trailing
whitespace. -/
def jsTrim (s : String) : String :=
  String.mk (((s.data.dropWhile isJsWhitespace).reverse.dropWhile isJsWhitespace).reverse)

/-- Serialization of one character of a DOM text node back to HTML source,
per the HTML fragment-serialization algorithm (`&`, `<`, `>` and U+00A0
become entities). -/
def escapeHtmlChar (c : Char) : String :=
  if c = '&' then "&amp;"
  else if c = '<' then "&lt;"
  else if c = '>' then "&gt;"
  else if c = '\u00A0' then "&nbsp;"
  else String.singleton c

/-- Embeds `escapeHtml` from `app.js`: the function assigns the argument to
`div.textContent` and reads back `div.innerHTML`, i.e. it serializes the
text node, escaping each character as HTML requires. -/
def escapeHtml (text : String) : String :=
  String.join (text.data.map escapeHtmlChar)

/-- Re-parsing an HTML fragment that consists only of text and the
character entities produced by text-node serialization: entities decode
back to their characters.  Used to state the round-trip property of
`escapeHtml` (parsing escaped output as text recovers the input). -/
def unescapeTextL : List Char → List Char
  | '&' :: 'a' :: 'm' :: 'p' :: ';' :: rest => '&' :: unescapeTextL rest
  | '&' :: 'l' :: 't' :: ';' :: rest => '<' :: unescapeTextL rest
  | '&' :: 'g' :: 't' :: ';' :: rest => '>' :: unescapeTextL rest
  | '&' :: 'n' :: 'b' :: 's' :: 'p' :: ';' :: rest => '\u00A0' :: unescapeTextL rest
  | c :: rest => c :: unescapeTextL rest
  | [] => []

/-- String-level wrapper of `unescapeTextL`. -/
def unescapeText (s : String) : String :=
  String.mk (unescapeTextL s.data)

/-- Embeds `getBasename` from `app.js`: `path.split(/[\\/]/).pop()`. -/
def splitOnSlash : List Char → List (List Char)
  | [] => [[]]
  | c :: rest =>
    if c = '/' || c = '\\' then [] :: splitOnSlash rest
    else
      match splitOnSlash rest with
      | g :: gs => (c :: g) :: gs
      | [] => [[c]]

/-- `getBasename(path)` returns the last segment of the path split on
slashes and backslashes. -/
def getBasename (path : String) : String :=
  String.mk (((splitOnSlash path.data).getLast?).getD [])

/-- JavaScript `a || b` for an optional string field: `undefined` and the
empty string are falsy and select the default. -/
def jsOr (s : Option String) (dflt : String) : String :=
  match s with
  | some v => if v = "" then dflt else v
  | none => dflt

/-- Message roles, the first argument of `addMessage`. -/
inductive Role where
  | user
  | assistant
deriving DecidableEq

/-- One entry of the `#messages` container: either an appended message
(`addMessage`) or the typing-indicator placeholder created by
`showTypingIndicator`, identified by its DOM id (modelled as the
`Date.now()` value used to build the id string). -/
inductive LogEntry where
  | message (role : Role) (content : String)
  | typing (id : Nat)
deriving DecidableEq

/-- Embeds `removeTypingIndicator`: `getElementById` finds the first
element with the given id and `remove()` deletes it; absent id is a
no-op. -/
def removeTypingIndicator (msgs : List LogEntry) (id : Nat) : List LogEntry :=
  match msgs with
  | [] => []
  | e :: rest =>
    if e = LogEntry.typing id then rest
    else e :: removeTypingIndicator rest id

/-- The `stats` object of the service responses (`unique_files`,
`total_chunks`, `total_vectors`); fields may be absent, the code supplies
`|| 0` defaults. -/
structure VectorStats where
  unique_files : Option Nat
  total_chunks : Option Nat
  total_vectors : Option Nat
deriving DecidableEq

/-- All client-side state touched by `app.js`: the `state` object
(`repositoryLoaded`, `isLoading`, `currentPath`) plus the DOM surface the
code reads and writes. `timers` records the delays of the revert timeouts
scheduled by `showError` (nothing in the code ever cancels one). -/
structure AppState where
  repositoryLoaded : Bool
  isLoading : Bool
  currentPath : Option String
  repoPathInput : String
  messageInput : String
  messages : List LogEntry
  messageInputDisabled : Bool
  sendBtnDisabled : Bool
  inputHint : String
  repoStatusClass : String
  repoStatusText : String
  statFiles : Nat
  statChunks : Nat
  statVectors : Nat
  statsVisible : Bool
  loadingOverlayHidden : Bool
  loadingText : String
  timers : List Nat
deriving DecidableEq

/-- Embeds `updateRepoStatus`: sets the indicator's class list to
`repo-status STATUS` and its `.status-text` text. -/
def updateRepoStatus (st : AppState) (status text : String) : AppState :=
  { st with repoStatusClass := "repo-status " ++ status, repoStatusText := text }

/-- Embeds `updateStats`: a missing stats object is ignored; otherwise the
three counters (defaulted through `|| 0`) are displayed and the stats
section unhidden. -/
def updateStats (st : AppState) (stats : Option VectorStats) : AppState :=
  match stats with
  | none => st
  | some s =>
    { st with
      statFiles := s.unique_files.getD 0
      statChunks := s.total_chunks.getD 0
      statVectors := s.total_vectors.getD 0
      statsVisible := true }

/-- Embeds `enableChat`. -/
def enableChat (st : AppState) : AppState :=
  { st with
    messageInputDisabled := false
    sendBtnDisabled := false
    inputHint := "Ask anything about your code" }

/-- Embeds `disableSend`. -/
def disableSend (st : AppState) : AppState :=
  { st with sendBtnDisabled := true }

/-- Embeds `enableSend`. -/
def enableSend (st : AppState) : AppState :=
  { st with sendBtnDisabled := false }

/-- Embeds `showLoading`. -/
def showLoading (st : AppState) (text : String) : AppState :=
  { st with loadingText := text, loadingOverlayHidden := false }

/-- Embeds `hideLoading`. -/
def hideLoading (st : AppState) : AppState :=
  { st with loadingOverlayHidden := true }

/-- The fixed delay (milliseconds) of the revert timeout in `showError`. -/
def revertDelayMs : Nat := 3000

/-- Embeds `showError`: show the error status and schedule a timeout of
`revertDelayMs` whose callback is `revertTimerFire`.  The scheduled delay
is recorded in `timers`; no code path ever clears a scheduled timeout. -/
def showError (st : AppState) (message : String) : AppState :=
  let st1 := updateRepoStatus st ("error") message
  { st1 with timers := st1.timers ++ [revertDelayMs] }

/-- The body of the timeout callback scheduled by `showError`: if no
repository is loaded when the timer fires, revert the status indicator to
the neutral text. -/
def revertTimerFire (st : AppState) : AppState :=
  if st.repositoryLoaded then st
  else updateRepoStatus st ("") ("No repository loaded")

/-- Claim C5: `escapeHtml "<b>&x</b>"` converts every `<`, `>` and `&` to
its entity form (no raw `<` or `>` remains), and re-parsing the output as
text recovers the original string. -/
theorem escapeHtml_example_roundtrip :
    escapeHtml ("<b>&x</b>") = "&lt;b&gt;&amp;x&lt;/b&gt;"
    ∧ (∀ c ∈ (escapeHtml ("<b>&x</b>")).data, c ≠ '<' ∧ c ≠ '>')
    ∧ unescapeText (escapeHtml ("<b>&x</b>")) = "<b>&x</b>" := by
  refine ⟨by decide, by decide, by decide⟩

/-- JavaScript `\w` without flags: ASCII letters, digits and underscore. -/
def isWordChar (c : Char) : Bool :=
  c.isAlpha || c.isDigit || c = '_'

/-- One pass of a JavaScript global regex replace
(`String.prototype.replace` with a `/g` pattern): at each position, if the
matcher fires, emit its replacement and resume after the consumed text,
otherwise emit the current character and advance by one.  Every matcher
used below consumes at least two characters when it fires, and each step
consumes at least one character, so a fuel equal to the input length never
runs out before the input does (see `scanWith_fuel_congr`). -/
def scanWith (tryM : List Char → Option (List Char × List Char)) :
    Nat → List Char → List Char
  | 0, l => l
  | _ + 1, [] => []
  | fuel + 1, c :: rest =>
    match tryM (c :: rest) with
    | some (rep, remainder) => rep ++ scanWith tryM fuel remainder
    | none => c :: scanWith tryM fuel rest

/-- First occurrence of a triple backtick in the lazy body of a fenced
code block: `splitFence l = some (content, tail)` splits `l` around the
first ` ``` `, as the non-greedy `([\s\S]*?)` followed by the closing
fence does. -/
def splitFence : List Char → Option (List Char × List Char)
  | [] => none
  | c :: rest =>
    if c = '\x60' ∧ rest.take 2 = ['\x60', '\x60'] then some ([], rest.drop 2)
    else Option.map (fun p => (c :: p.1, p.2)) (splitFence rest)

/-- Head matcher of the fenced-code-block rule of `formatAnswer`, the
pattern `/```(\w+)?\n([\s\S]*?)```/g` with replacement
`<pre><code>$2</code></pre>`: an optional language word after the opening
fence is dropped, a newline is required, and the lazily matched content is
substituted verbatim (no escaping). -/
def tryCodeBlock (l : List Char) : Option (List Char × List Char) :=
  match l with
  | c1 :: c2 :: c3 :: rest =>
    if c1 = '\x60' ∧ c2 = '\x60' ∧ c3 = '\x60' then
      let lang := rest.takeWhile isWordChar
      match rest.drop lang.length with
      | '\n' :: body =>
        match splitFence body with
        | some (content, tail) =>
          some (("<pre><code>").data ++ content ++ ("</code></pre>").data, tail)
        | none => none
      | _ => none
    else none
  | _ => none

/-- Head matcher of the inline-code rule, `/`([^`]+)`/g` with replacement
`<code>$1</code>`: a backtick, a non-empty run of non-backticks, a closing
backtick. -/
def tryInlineCode (l : List Char) : Option (List Char × List Char) :=
  match l with
  | [] => none
  | c :: rest =>
    if c = '\x60' then
      let content := rest.takeWhile (fun ch => ch ≠ '\x60')
      if content.isEmpty then none
      else
        match rest.drop content.length with
        | '\x60' :: tail =>
          some (("<code>").data ++ content ++ ("</code>").data, tail)
        | _ => none
    else none

/-- Head matcher of the bold rule, `/\*\*([^*]+)\*\*/g` with replacement
`<strong>$1</strong>`. -/
def tryBold (l : List Char) : Option (List Char × List Char) :=
  match l with
  | c1 :: c2 :: rest =>
    if c1 = '*' ∧ c2 = '*' then
      let content := rest.takeWhile (fun ch => ch ≠ '*')
      if content.isEmpty then none
      else
        match rest.drop content.length with
        | '*' :: '*' :: tail =>
          some (("<strong>").data ++ content ++ ("</strong>").data, tail)
        | _ => none
    else none
  | _ => none

/-- Head matcher of the italic rule, `/\*([^*]+)\*/g` with replacement
`<em>$1</em>`. -/
def tryItalic (l : List Char) : Option (List Char × List Char) :=
  match l with
  | c :: rest =>
    if c = '*' then
      let content := rest.takeWhile (fun ch => ch ≠ '*')
      if content.isEmpty then none
      else
        match rest.drop content.length with
        | '*' :: tail =>
          some (("<em>").data ++ content ++ ("</em>").data, tail)
        | _ => none
    else none
  | [] => none

/-- Head matcher of the paragraph-break rule, `/\n\n/g` with replacement
`</p><p>`. -/
def tryParagraphBreak (l : List Char) : Option (List Char × List Char) :=
  match l with
  | c1 :: c2 :: rest =>
    if c1 = '\n' ∧ c2 = '\n' then some (("</p><p>").data, rest) else none
  | _ => none

/-- Head matcher of the line-break rule, `/\n/g` with replacement
`<br>`. -/
def tryLineBreak (l : List Char) : Option (List Char × List Char) :=
  match l with
  | c :: rest => if c = '\n' then some (("<br>").data, rest) else none
  | [] => none

/-- The fenced-code-block replacement pass of `formatAnswer`. -/
def stageCodeBlocks (l : List Char) : List Char := scanWith tryCodeBlock l.length l

/-- The inline-code replacement pass of `formatAnswer`. -/
def stageInlineCode (l : List Char) : List Char := scanWith tryInlineCode l.length l

/-- The bold replacement pass of `formatAnswer`. -/
def stageBold (l : List Char) : List Char := scanWith tryBold l.length l

/-- The italic replacement pass of `formatAnswer`. -/
def stageItalic (l : List Char) : List Char := scanWith tryItalic l.length l

/-- The paragraph-break replacement pass of `formatAnswer`. -/
def stageParagraphBreaks (l : List Char) : List Char := scanWith tryParagraphBreak l.length l

/-- The line-break replacement pass of `formatAnswer`. -/
def stageLineBreaks (l : List Char) : List Char := scanWith tryLineBreak l.length l

/-- The final step of `formatAnswer`: `if (!html.startsWith('<'))` wrap
the fragment in a paragraph tag. -/
def paragraphWrap (l : List Char) : List Char :=
  match l with
  | '<' :: _ => l
  | _ => ("<p>").data ++ l ++ ("</p>").data

/-- Embeds `formatAnswer` on character lists: the six global replacements
applied in source order (fenced code blocks, inline code, bold, italic,
blank-line paragraph breaks, remaining newlines), then the final
`startsWith('<')` check. -/
def formatAnswerL (l : List Char) : List Char :=
  paragraphWrap
    (stageLineBreaks (stageParagraphBreaks (stageItalic (stageBold
      (stageInlineCode (stageCodeBlocks l))))))

/-- Embeds `formatAnswer` from `app.js` (string level). -/
def formatAnswer (text : String) : String :=
  String.mk (formatAnswerL text.data)

/-- Outcome of the `POST /ask` network call, typed per the service
interface: a 2xx response carries `answer` and an optional
`source_files`; a non-2xx response carries an optional `detail` (the code
throws `Error(detail || 'Failed to get answer')`); `fault` is a thrown
transport error (`fetch` or `response.json()` rejecting). -/
inductive AskOutcome where
  | success (answer : String) (source_files : Option (List String))
  | failure (detail : Option String)
  | fault (message : String)
deriving DecidableEq

/-- Outcome of the `POST /load` network call: a 2xx response carries
`message` and `stats.vectors`; a non-2xx response carries an optional
`detail` (the code throws `Error(detail || 'Failed to load repository')`);
`fault` is a thrown transport error. -/
inductive LoadOutcome where
  | success (message : String) (vectors : VectorStats)
  | failure (detail : Option String)
  | fault (message : String)
deriving DecidableEq

/-- Observable actions of one ask call, in the order the code performs
them: DOM appends/removals on the Conversation Log and the network
request. -/
inductive Event where
  | domAppendUser (content : String)
  | domInsertTyping (id : Nat)
  | netAsk (question : String) (top_k : Nat)
  | domRemoveTyping (id : Nat)
  | domAppendAssistant (content : String)
deriving DecidableEq

/-- The user-message markup of `sendMessage`:
`<p>${escapeHtml(question)}</p>`. -/
def userMsgHtml (question : String) : String :=
  "<p>" ++ escapeHtml question ++ "</p>"

/-- The assistant error markup of the `catch` branch of `sendMessage`:
`<p>❌ <strong>Error</strong></p><p>${escapeHtml(error.message)}</p>`
(insignificant template-literal whitespace elided). -/
def askErrorHtml (message : String) : String :=
  "<p>❌ <strong>Error</strong></p><p>" ++ escapeHtml message ++ "</p>"

/-- The `Source Files` block appended to a successful answer when
`data.source_files` is a non-empty list: a labelled div of escaped
`source-file-tag` spans (template whitespace elided). -/
def sourceFilesHtml (sfs : Option (List String)) : String :=
  match sfs with
  | some fs =>
    if fs.length > 0 then
      "<div class=\"source-files\"><div class=\"source-files-label\">📁 Source Files</div>"
        ++ String.join (fs.map (fun f => "<span class=\"source-file-tag\">" ++ escapeHtml f ++ "</span>"))
        ++ "</div>"
    else ""
  | none => ""

/-- The terminal assistant markup of one ask call, by outcome: the
formatted answer plus the source-files block on success, the escaped
failure reason otherwise. -/
def askTerminalHtml : AskOutcome → String
  | AskOutcome.success answer sfs => formatAnswer answer ++ sourceFilesHtml sfs
  | AskOutcome.failure detail => askErrorHtml (jsOr detail ("Failed to get answer"))
  | AskOutcome.fault message => askErrorHtml message

/-- Embeds `sendMessage` from `app.js`, with the network outcome passed
explicitly and the fresh typing-indicator id `tid` (the `Date.now()`
value) as a parameter.  Guard: `!question || !state.repositoryLoaded ||
state.isLoading` returns immediately.  Otherwise, in source order: append
the escaped user message and clear the input; insert the typing
placeholder; set `isLoading` and disable the send button; issue the
network call; on any outcome remove the placeholder by id and append the
terminal assistant message; finally clear `isLoading` and re-enable the
send button.  The second component lists the observable events in
execution order. -/
def sendMessageRun (st : AppState) (tid : Nat) (outcome : AskOutcome) :
    AppState × List Event :=
  let question := jsTrim st.messageInput
  if question == "" || !st.repositoryLoaded || st.isLoading then (st, [])
  else
    let st1 := { st with
      messages := st.messages ++ [LogEntry.message Role.user (userMsgHtml question)]
      messageInput := "" }
    let st2 := { st1 with messages := st1.messages ++ [LogEntry.typing tid] }
    let st3 := disableSend { st2 with isLoading := true }
    let st4 :=
      match outcome with
      | AskOutcome.success answer sfs =>
        let stR := { st3 with messages := removeTypingIndicator st3.messages tid }
        { stR with
          messages := stR.messages ++
            [LogEntry.message Role.assistant (formatAnswer answer ++ sourceFilesHtml sfs)] }
      | AskOutcome.failure detail =>
        let stR := { st3 with messages := removeTypingIndicator st3.messages tid }
        { stR with
          messages := stR.messages ++
            [LogEntry.message Role.assistant (askErrorHtml (jsOr detail ("Failed to get answer")))] }
      | AskOutcome.fault message =>
        let stR := { st3 with messages := removeTypingIndicator st3.messages tid }
        { stR with
          messages := stR.messages ++
            [LogEntry.message Role.assistant (askErrorHtml message)] }
    let st5 := enableSend { st4 with isLoading := false }
    (st5,
     [Event.domAppendUser (userMsgHtml question), Event.domInsertTyping tid,
      Event.netAsk question 5, Event.domRemoveTyping tid,
      Event.domAppendAssistant (askTerminalHtml outcome)])

/-- The assistant success markup of `loadRepository` (template whitespace
elided): the banner, the service's `message`, and the example
questions. -/
def loadSuccessHtml (message : String) : String :=
  "<p>✅ <strong>Repository loaded successfully!</strong></p><p>" ++ message
    ++ "</p><p>You can now ask me anything about your code. Try questions like:</p>"
    ++ "<ul><li>What is the main purpose of this project?</li>"
    ++ "<li>Explain the file structure</li>"
    ++ "<li>How does the authentication work?</li></ul>"

/-- The assistant failure markup of `loadRepository`: note that
`error.message` is interpolated raw, with no `escapeHtml` call (template
whitespace elided). -/
def loadFailureHtml (message : String) : String :=
  "<p>❌ <strong>Failed to load repository</strong></p><p>" ++ message
    ++ "</p><p class=\"hint\">Make sure the path exists and contains supported files (.py, .js, .ts, .java, .cpp, .md)</p>"

/-- Embeds `loadRepository` from `app.js`, with the network outcome passed
explicitly.  An empty trimmed path is rejected locally through
`showError`; otherwise the loading overlay and `loading` status are
shown, the call is issued, and on success the session state is marked
loaded, the status/stats/chat controls updated and a success message
appended, while on failure (service-reported or thrown) the `error`
status is shown and a failure message appended; `finally` hides the
overlay. -/
def loadRepository (st : AppState) (outcome : LoadOutcome) : AppState :=
  let path := jsTrim st.repoPathInput
  if path == "" then showError st ("Please enter a repository path")
  else
    let st1 := showLoading st ("Loading repository...")
    let st2 := updateRepoStatus st1 ("loading") ("Scanning files...")
    let st3 :=
      match outcome with
      | LoadOutcome.success message vectors =>
        let s1 := { st2 with repositoryLoaded := true, currentPath := some path }
        let s2 := updateRepoStatus s1 ("loaded") ("Loaded: " ++ getBasename path)
        let s3 := enableChat (updateStats s2 (some vectors))
        { s3 with messages := s3.messages ++ [LogEntry.message Role.assistant (loadSuccessHtml message)] }
      | LoadOutcome.failure detail =>
        let m := jsOr detail ("Failed to load repository")
        let s1 := updateRepoStatus st2 ("error") m
        { s1 with messages := s1.messages ++ [LogEntry.message Role.assistant (loadFailureHtml m)] }
      | LoadOutcome.fault message =>
        let s1 := updateRepoStatus st2 ("error") message
        { s1 with messages := s1.messages ++ [LogEntry.message Role.assistant (loadFailureHtml message)] }
    hideLoading st3

/-- Embeds the quick-question click handler of `initEventListeners`: the
button's `data-question` value (absent attributes read as `undefined`,
empty ones are falsy) is written into the message input and `sendMessage`
invoked, but only when `state.repositoryLoaded` holds and the value is
truthy; otherwise nothing happens. -/
def quickBtnClick (st : AppState) (btnQuestion : Option String) (tid : Nat)
    (outcome : AskOutcome) : AppState × List Event :=
  match btnQuestion with
  | some q =>
    if st.repositoryLoaded && q != "" then
      sendMessageRun { st with messageInput := q } tid outcome
    else (st, [])
  | none => (st, [])

/-- Modelled from the spec: the initial DOM state of the page
(`index.html` is not part of the sources; the specification says chat
input is enabled only after a successful load, the status indicator
starts as neutral "No repository loaded", the stats section hidden and
the overlay hidden). -/
def initialState : AppState where
  repositoryLoaded := false
  isLoading := false
  currentPath := none
  repoPathInput := ""
  messageInput := ""
  messages := []
  messageInputDisabled := true
  sendBtnDisabled := true
  inputHint := "Load a repository to start chatting"
  repoStatusClass := "repo-status "
  repoStatusText := "No repository loaded"
  statFiles := 0
  statChunks := 0
  statVectors := 0
  statsVisible := false
  loadingOverlayHidden := true
  loadingText := ""
  timers := []

theorem removeTypingIndicator_append (A : List LogEntry) (tid : Nat)
    (h : LogEntry.typing tid ∉ A) :
    removeTypingIndicator (A ++ [LogEntry.typing tid]) tid = A := by
  induction A with
  | nil => simp [removeTypingIndicator]
  | cons e rest ih =>
    have he : e ≠ LogEntry.typing tid := fun h' => h (by simp [h'])
    have hrest : LogEntry.typing tid ∉ rest := fun h' => h (by simp [h'])
    simp [removeTypingIndicator, he, ih hrest]

/-- Claim C1: unless `repositoryLoaded` is true, `isLoading` is false and
the trimmed question is non-empty, `sendMessage` is a silent no-op: the
state is unchanged and no event (no log append, no network call) is
emitted. -/
theorem sendMessage_noop_without_preconditions (st : AppState) (tid : Nat)
    (oc : AskOutcome)
    (h : ¬(st.repositoryLoaded = true ∧ st.isLoading = false ∧
           jsTrim st.messageInput ≠ "")) :
    sendMessageRun st tid oc = (st, []) := by
  by_cases htr : jsTrim st.messageInput = ""
  · simp [sendMessageRun, htr]
  · cases hrl : st.repositoryLoaded with
    | false => simp [sendMessageRun, hrl]
    | true =>
      cases hil : st.isLoading with
      | true => simp [sendMessageRun, hil]
      | false => exact absurd ⟨hrl, hil, htr⟩ h

theorem sendMessage_noop_witness :
    sendMessageRun initialState 1 (AskOutcome.success ("ok") none) =
      (initialState, []) :=
  sendMessage_noop_without_preconditions initialState 1
    (AskOutcome.success ("ok") none) (by decide)

/-- Claim C2: on every ask call that passes the guard, the typing
placeholder is inserted before the network request is issued and removed
by its recorded id before the terminal assistant message (answer or
error) is appended — so the final log is the old log plus exactly the
user message and the terminal message, with no trace of the
placeholder. -/
theorem sendMessage_typing_lifecycle (st : AppState) (tid : Nat)
    (oc : AskOutcome)
    (hq : jsTrim st.messageInput ≠ "") (hrl : st.repositoryLoaded = true)
    (hil : st.isLoading = false)
    (htid : LogEntry.typing tid ∉ st.messages) :
    (sendMessageRun st tid oc).2 =
      [Event.domAppendUser (userMsgHtml (jsTrim st.messageInput)),
       Event.domInsertTyping tid,
       Event.netAsk (jsTrim st.messageInput) 5,
       Event.domRemoveTyping tid,
       Event.domAppendAssistant (askTerminalHtml oc)]
    ∧ (sendMessageRun st tid oc).1.messages =
        st.messages ++
          [LogEntry.message Role.user (userMsgHtml (jsTrim st.messageInput)),
           LogEntry.message Role.assistant (askTerminalHtml oc)]
    ∧ LogEntry.typing tid ∉ (sendMessageRun st tid oc).1.messages := by
  have htid' :
      LogEntry.typing tid ∉
        st.messages ++ [LogEntry.message Role.user (userMsgHtml (jsTrim st.messageInput))] := by
    simp [htid]
  have hrem :
      removeTypingIndicator
        (st.messages ++
          [LogEntry.message Role.user (userMsgHtml (jsTrim st.messageInput)),
           LogEntry.typing tid]) tid =
        st.messages ++
          [LogEntry.message Role.user (userMsgHtml (jsTrim st.messageInput))] := by
    simpa using
      removeTypingIndicator_append
        (st.messages ++ [LogEntry.message Role.user (userMsgHtml (jsTrim st.messageInput))])
        tid htid'
  cases oc <;>
    simp [sendMessageRun, hq, hrl, hil, enableSend, disableSend, askTerminalHtml,
          hrem, htid]

/-- Claim C3: every ask call that passes the guard ends with `isLoading`
reset to false and the send button re-enabled, on the success, failure
and thrown-fault paths alike. -/
theorem sendMessage_restores_idle (st : AppState) (tid : Nat)
    (oc : AskOutcome)
    (hq : jsTrim st.messageInput ≠ "") (hrl : st.repositoryLoaded = true)
    (hil : st.isLoading = false) :
    (sendMessageRun st tid oc).1.isLoading = false
    ∧ (sendMessageRun st tid oc).1.sendBtnDisabled = false := by
  cases oc <;>
    simp [sendMessageRun, hq, hrl, hil, enableSend, disableSend]

/-- A sample session state after a successful load, with a question typed
into the message input; used by the witness theorems. -/
def loadedState : AppState :=
  { initialState with
    repositoryLoaded := true
    currentPath := some "/repo"
    repoPathInput := "/repo"
    messageInput := "What does main do?"
    messageInputDisabled := false
    sendBtnDisabled := false }

theorem sendMessage_typing_lifecycle_witness :
    (sendMessageRun loadedState 7 (AskOutcome.fault ("boom"))).2 =
      [Event.domAppendUser (userMsgHtml (jsTrim loadedState.messageInput)),
       Event.domInsertTyping 7,
       Event.netAsk (jsTrim loadedState.messageInput) 5,
       Event.domRemoveTyping 7,
       Event.domAppendAssistant (askTerminalHtml (AskOutcome.fault ("boom")))]
    ∧ (sendMessageRun loadedState 7 (AskOutcome.fault ("boom"))).1.messages =
        loadedState.messages ++
          [LogEntry.message Role.user (userMsgHtml (jsTrim loadedState.messageInput)),
           LogEntry.message Role.assistant (askTerminalHtml (AskOutcome.fault ("boom")))]
    ∧ LogEntry.typing 7 ∉
        (sendMessageRun loadedState 7 (AskOutcome.fault ("boom"))).1.messages :=
  sendMessage_typing_lifecycle loadedState 7 (AskOutcome.fault ("boom"))
    (by decide) (by decide) (by decide) (by decide)

theorem sendMessage_restores_idle_witness :
    (sendMessageRun loadedState 7 (AskOutcome.failure none)).1.isLoading = false
    ∧ (sendMessageRun loadedState 7 (AskOutcome.failure none)).1.sendBtnDisabled = false :=
  sendMessage_restores_idle loadedState 7 (AskOutcome.failure none)
    (by decide) (by decide) (by decide)

/-- Claim C4: with a non-empty trimmed path, a successful load marks the
session loaded (and records the path, and enables the chat controls),
while a failed load — service-reported or thrown — leaves
`repositoryLoaded` and `currentPath` exactly as they were. -/
theorem loadRepository_state_transitions (st : AppState) (msg m : String)
    (vectors : VectorStats) (d : Option String)
    (h : jsTrim st.repoPathInput ≠ "") :
    (loadRepository st (LoadOutcome.success msg vectors)).repositoryLoaded = true
    ∧ (loadRepository st (LoadOutcome.success msg vectors)).currentPath =
        some (jsTrim st.repoPathInput)
    ∧ (loadRepository st (LoadOutcome.success msg vectors)).messageInputDisabled = false
    ∧ (loadRepository st (LoadOutcome.success msg vectors)).sendBtnDisabled = false
    ∧ (loadRepository st (LoadOutcome.failure d)).repositoryLoaded = st.repositoryLoaded
    ∧ (loadRepository st (LoadOutcome.failure d)).currentPath = st.currentPath
    ∧ (loadRepository st (LoadOutcome.fault m)).repositoryLoaded = st.repositoryLoaded
    ∧ (loadRepository st (LoadOutcome.fault m)).currentPath = st.currentPath := by
  simp [loadRepository, h, showLoading, hideLoading, updateRepoStatus,
        updateStats, enableChat, showError]

theorem loadRepository_state_transitions_witness :
    (loadRepository loadedState (LoadOutcome.success ("done") ⟨some 3, some 5, some 9⟩)).repositoryLoaded = true
    ∧ (loadRepository loadedState (LoadOutcome.success ("done") ⟨some 3, some 5, some 9⟩)).currentPath =
        some (jsTrim loadedState.repoPathInput)
    ∧ (loadRepository loadedState (LoadOutcome.success ("done") ⟨some 3, some 5, some 9⟩)).messageInputDisabled = false
    ∧ (loadRepository loadedState (LoadOutcome.success ("done") ⟨some 3, some 5, some 9⟩)).sendBtnDisabled = false
    ∧ (loadRepository loadedState (LoadOutcome.failure (some "path not found"))).repositoryLoaded =
        loadedState.repositoryLoaded
    ∧ (loadRepository loadedState (LoadOutcome.failure (some "path not found"))).currentPath =
        loadedState.currentPath
    ∧ (loadRepository loadedState (LoadOutcome.fault ("network down"))).repositoryLoaded =
        loadedState.repositoryLoaded
    ∧ (loadRepository loadedState (LoadOutcome.fault ("network down"))).currentPath =
        loadedState.currentPath :=
  loadRepository_state_transitions loadedState ("done") ("network down")
    ⟨some 3, some 5, some 9⟩ (some "path not found") (by decide)

/-- Claim C9: with a repository loaded, clicking a quick-question button
carrying the (non-empty) question `q` behaves exactly as typing `q` into
the message input and submitting — same state, same log, same events;
with no repository loaded the click does nothing at all. -/
theorem quick_button_matches_typed_submit (stT stF : AppState) (q : String)
    (tid : Nat) (oc : AskOutcome)
    (hq : q ≠ "") (hT : stT.repositoryLoaded = true)
    (hF : stF.repositoryLoaded = false) :
    quickBtnClick stT (some q) tid oc =
      sendMessageRun { stT with messageInput := q } tid oc
    ∧ quickBtnClick stF (some q) tid oc = (stF, []) := by
  constructor
  · simp [quickBtnClick, hT, hq]
  · simp [quickBtnClick, hF]

theorem quick_button_matches_typed_submit_witness :
    quickBtnClick loadedState (some "Explain the file structure") 3
        (AskOutcome.success ("sure") none) =
      sendMessageRun { loadedState with messageInput := "Explain the file structure" } 3
        (AskOutcome.success ("sure") none)
    ∧ quickBtnClick initialState (some "Explain the file structure") 3
        (AskOutcome.success ("sure") none) = (initialState, []) :=
  quick_button_matches_typed_submit loadedState initialState
    ("Explain the file structure") 3 (AskOutcome.success ("sure") none)
    (by decide) (by decide) (by decide)

/-- Claim C10: the two failure-surfacing paths treat the untrusted detail
text asymmetrically — a failed load appends `loadFailureHtml d`, which
interpolates the reason `d` raw (its characters appear verbatim in the
fragment), while a failed ask appends `askErrorHtml d`, which passes the
reason through `escapeHtml` first. -/
theorem failure_detail_escaping_asymmetry (st1 st2 : AppState) (d : String)
    (tid : Nat)
    (h1 : jsTrim st1.repoPathInput ≠ "") (hd : d ≠ "")
    (h2 : jsTrim st2.messageInput ≠ "") (h3 : st2.repositoryLoaded = true)
    (h4 : st2.isLoading = false)
    (htid : LogEntry.typing tid ∉ st2.messages) :
    (loadRepository st1 (LoadOutcome.failure (some d))).messages =
      st1.messages ++ [LogEntry.message Role.assistant (loadFailureHtml d)]
    ∧ (sendMessageRun st2 tid (AskOutcome.failure (some d))).1.messages =
        st2.messages ++
          [LogEntry.message Role.user (userMsgHtml (jsTrim st2.messageInput)),
           LogEntry.message Role.assistant (askErrorHtml d)]
    ∧ List.IsInfix d.data (loadFailureHtml d).data
    ∧ List.IsInfix (escapeHtml d).data (askErrorHtml d).data := by
  refine ⟨?_, ?_, ?_, ?_⟩
  · simp [loadRepository, h1, jsOr, hd, showLoading, hideLoading,
          updateRepoStatus, showError]
  · have htid' :
        LogEntry.typing tid ∉
          st2.messages ++ [LogEntry.message Role.user (userMsgHtml (jsTrim st2.messageInput))] := by
      simp [htid]
    have hrem :
        removeTypingIndicator
          (st2.messages ++
            [LogEntry.message Role.user (userMsgHtml (jsTrim st2.messageInput)),
             LogEntry.typing tid]) tid =
          st2.messages ++
            [LogEntry.message Role.user (userMsgHtml (jsTrim st2.messageInput))] := by
      simpa using
        removeTypingIndicator_append
          (st2.messages ++ [LogEntry.message Role.user (userMsgHtml (jsTrim st2.messageInput))])
          tid htid'
    simp [sendMessageRun, h2, h3, h4, jsOr, hd, enableSend, disableSend, hrem]
  · refine ⟨("<p>❌ <strong>Failed to load repository</strong></p><p>").data,
      ("</p><p class=\"hint\">Make sure the path exists and contains supported files (.py, .js, .ts, .java, .cpp, .md)</p>").data, ?_⟩
    simp [loadFailureHtml, String.data_append]
  · refine ⟨("<p>❌ <strong>Error</strong></p><p>").data, ("</p>").data, ?_⟩
    simp [askErrorHtml, String.data_append]

theorem failure_detail_escaping_asymmetry_witness :
    (loadRepository loadedState (LoadOutcome.failure (some "<img src=x>"))).messages =
      loadedState.messages ++
        [LogEntry.message Role.assistant (loadFailureHtml ("<img src=x>"))]
    ∧ (sendMessageRun loadedState 9 (AskOutcome.failure (some "<img src=x>"))).1.messages =
        loadedState.messages ++
          [LogEntry.message Role.user (userMsgHtml (jsTrim loadedState.messageInput)),
           LogEntry.message Role.assistant (askErrorHtml ("<img src=x>"))]
    ∧ List.IsInfix ("<img src=x>").data (loadFailureHtml ("<img src=x>")).data
    ∧ List.IsInfix (escapeHtml ("<img src=x>")).data (askErrorHtml ("<img src=x>")).data :=
  failure_detail_escaping_asymmetry loadedState loadedState ("<img src=x>") 9
    (by decide) (by decide) (by decide) (by decide) (by decide) (by decide)

/-- Claim C8 counterexample: the revert timeout scheduled by `showError`
is not cancellable.  Concretely: an error is raised while no repository
is loaded; before the timer fires the user triggers another action (a
second submission of an empty path, which re-raises the error status).
The first timer is still pending (`timers` has both entries — nothing in
the code ever cancels a timeout), and when it fires it still rewrites the
status to the neutral text, clobbering the status the later action
displayed. -/
theorem showError_revert_not_cancellable :
    (updateRepoStatus
        (showError (showError initialState ("Please enter a repository path"))
          ("Please enter a repository path")) ("loading") ("Scanning files...")).timers
      = [revertDelayMs, revertDelayMs]
    ∧ revertTimerFire
        (updateRepoStatus
          (showError (showError initialState ("Please enter a repository path"))
            ("Please enter a repository path")) ("loading") ("Scanning files...")) ≠
        updateRepoStatus
          (showError (showError initialState ("Please enter a repository path"))
            ("Please enter a repository path")) ("loading") ("Scanning files...")
    ∧ (revertTimerFire
        (updateRepoStatus
          (showError (showError initialState ("Please enter a repository path"))
            ("Please enter a repository path")) ("loading") ("Scanning files..."))).repoStatusText
      = "No repository loaded" := by
  refine ⟨by decide, by decide, by decide⟩

/-- Claim C8 as amended: `showError` schedules a reversion with the fixed
3000 ms delay; the firing callback is a no-op when a repository has since
been loaded, and firing is idempotent — but it is not cancellable: no
operation removes a scheduled timer, and whenever it fires with
`repositoryLoaded` still false it rewrites the status indicator to the
neutral text regardless of what any intervening action displayed. -/
theorem showError_revert_behavior (st stL : AppState) (m : String)
    (hL : stL.repositoryLoaded = true) (hN : st.repositoryLoaded = false) :
    (showError st m).timers = st.timers ++ [revertDelayMs]
    ∧ (showError st m).repoStatusClass = "repo-status error"
    ∧ (showError st m).repoStatusText = m
    ∧ revertTimerFire stL = stL
    ∧ revertTimerFire (revertTimerFire st) = revertTimerFire st
    ∧ (revertTimerFire st).repoStatusClass = "repo-status "
    ∧ (revertTimerFire st).repoStatusText = "No repository loaded" := by
  refine ⟨?_, ?_, ?_, ?_, ?_, ?_, ?_⟩ <;>
    simp [showError, revertTimerFire, updateRepoStatus, hL, hN]

theorem showError_revert_behavior_witness :
    (showError initialState ("oops")).timers = initialState.timers ++ [revertDelayMs]
    ∧ (showError initialState ("oops")).repoStatusClass = "repo-status error"
    ∧ (showError initialState ("oops")).repoStatusText = "oops"
    ∧ revertTimerFire loadedState = loadedState
    ∧ revertTimerFire (revertTimerFire initialState) = revertTimerFire initialState
    ∧ (revertTimerFire initialState).repoStatusClass = "repo-status "
    ∧ (revertTimerFire initialState).repoStatusText = "No repository loaded" :=
  showError_revert_behavior initialState loadedState ("oops")
    (by decide) (by decide)

/-- Claim C6 counterexample: `formatAnswer "**bold** and `code`"` is NOT
wrapped in a paragraph tag — after the bold substitution the fragment
already starts with `<`, so the final wrapping step of `formatAnswer`
skips it, and no paragraph tag occurs anywhere in the output. -/
theorem formatAnswer_no_paragraph_counterexample :
    formatAnswer ("**bold** and `code`") =
      "<strong>bold</strong> and <code>code</code>"
    ∧ ¬ List.IsInfix (("<p>").data)
        ((formatAnswer ("**bold** and `code`")).data) := by
  refine ⟨by decide, by decide⟩

/-- Claim C6 as amended: `formatAnswer "**bold** and `code`"` wraps
"bold" in strong-emphasis markup and "code" in inline-code markup, but
the fragment is not wrapped in a paragraph tag, because it already starts
with a markup tag and the paragraph wrap only applies to fragments that
do not. -/
theorem formatAnswer_bold_code_example :
    formatAnswer ("**bold** and `code`") =
      "<strong>bold</strong> and <code>code</code>" := by
  decide

/-- Claim C7 counterexample: the content of a fenced code block is NOT
HTML-escaped — `formatAnswer "```\n<b>```"` emits the `<b>` of the
content verbatim inside the block-code markup, and the escaped form
`&lt;` appears nowhere in the output. -/
theorem formatAnswer_codeblock_unescaped_counterexample :
    formatAnswer ("```\n<b>```") = "<pre><code><b></code></pre>"
    ∧ ¬ List.IsInfix (("&lt;").data)
        ((formatAnswer ("```\n<b>```")).data) := by
  refine ⟨by decide, by decide⟩

theorem scanWith_nil (tryM : List Char → Option (List Char × List Char))
    (fuel : Nat) : scanWith tryM fuel [] = [] := by
  cases fuel <;> simp [scanWith]

theorem scanWith_head_match_nil (tryM : List Char → Option (List Char × List Char))
    (c : Char) (rest rep : List Char)
    (h : tryM (c :: rest) = some (rep, [])) :
    scanWith tryM (c :: rest).length (c :: rest) = rep := by
  rw [List.length_cons]
  simp [scanWith, h, scanWith_nil]

theorem scanWith_of_no_trigger (tryM : List Char → Option (List Char × List Char))
    (p : Char → Prop)
    (hM : ∀ c rest, ¬ p c → tryM (c :: rest) = none) :
    ∀ (fuel : Nat) (l : List Char), (∀ c ∈ l, ¬ p c) → scanWith tryM fuel l = l := by
  intro fuel
  induction fuel with
  | zero => intro l _; simp [scanWith]
  | succ f ih =>
    intro l hl
    cases l with
    | nil => simp [scanWith]
    | cons c rest =>
      have hc := hl c (by simp)
      simp [scanWith, hM c rest hc, ih rest (fun x hx => hl x (by simp [hx]))]

theorem tryCodeBlock_none (c : Char) (rest : List Char) (hc : ¬ c = '\x60') :
    tryCodeBlock (c :: rest) = none := by
  cases rest with
  | nil => rfl
  | cons c2 rest2 =>
    cases rest2 with
    | nil => rfl
    | cons c3 rest3 => simp [tryCodeBlock, hc]

theorem tryInlineCode_none (c : Char) (rest : List Char) (hc : ¬ c = '\x60') :
    tryInlineCode (c :: rest) = none := by
  simp [tryInlineCode, hc]

theorem tryBold_none (c : Char) (rest : List Char) (hc : ¬ c = '*') :
    tryBold (c :: rest) = none := by
  cases rest with
  | nil => rfl
  | cons c2 rest2 => simp [tryBold, hc]

theorem tryItalic_none (c : Char) (rest : List Char) (hc : ¬ c = '*') :
    tryItalic (c :: rest) = none := by
  simp [tryItalic, hc]

theorem tryParagraphBreak_none (c : Char) (rest : List Char) (hc : ¬ c = '\n') :
    tryParagraphBreak (c :: rest) = none := by
  cases rest with
  | nil => rfl
  | cons c2 rest2 => simp [tryParagraphBreak, hc]

theorem tryLineBreak_none (c : Char) (rest : List Char) (hc : ¬ c = '\n') :
    tryLineBreak (c :: rest) = none := by
  simp [tryLineBreak, hc]

theorem splitFence_append_close (cl : List Char) (h : ∀ c ∈ cl, ¬ c = '\x60') :
    splitFence (cl ++ ['\x60', '\x60', '\x60']) = some (cl, []) := by
  induction cl with
  | nil => rfl
  | cons c cs ih =>
    have hc : ¬ c = '\x60' := h c (by simp)
    have ih' := ih (fun x hx => h x (by simp [hx]))
    simp [splitFence, hc, ih']

theorem string_data_mk (l : List Char) : (String.mk l).data = l := rfl

/-- Claim C7 as amended: the content of a fenced code block is preserved
verbatim inside the block-code markup with NO HTML-escaping applied
(content containing the later-stage marker characters — backticks,
asterisks, newlines — can additionally be rewritten by the later
substitution passes, e.g. a newline in the content becomes a break tag,
so the verbatim guarantee is stated for content free of those markers). -/
theorem formatAnswer_codeblock_verbatim (s : String)
    (h : ∀ ch ∈ s.data, ¬ ch = '\x60' ∧ ¬ ch = '*' ∧ ¬ ch = '\n') :
    formatAnswer ("```\n" ++ s ++ "```") = "<pre><code>" ++ s ++ "</code></pre>" := by
  have hbt : ∀ ch ∈ s.data, ¬ ch = '\x60' := fun ch hch => (h ch hch).1
  have hlitpre : ∀ x ∈ ("<pre><code>").data, ¬ x = '\x60' ∧ ¬ x = '*' ∧ ¬ x = '\n' := by
    decide
  have hlitpost : ∀ x ∈ ("</code></pre>").data, ¬ x = '\x60' ∧ ¬ x = '*' ∧ ¬ x = '\n' := by
    decide
  have hmid : ∀ ch ∈ ("<pre><code>").data ++ s.data ++ ("</code></pre>").data,
      ¬ ch = '\x60' ∧ ¬ ch = '*' ∧ ¬ ch = '\n' := by
    intro ch hch
    rcases List.mem_append.mp hch with hch' | h3
    · rcases List.mem_append.mp hch' with h1 | h2
      · exact hlitpre ch h1
      · exact h ch h2
    · exact hlitpost ch h3
  have hdata : ("```\n" ++ s ++ "```").data
      = '\x60' :: '\x60' :: '\x60' :: '\n' :: (s.data ++ ['\x60', '\x60', '\x60']) := by
    simp [String.data_append]
  have hword : isWordChar '\n' = false := by decide
  have hsplit := splitFence_append_close s.data hbt
  have htry : tryCodeBlock
      ('\x60' :: '\x60' :: '\x60' :: '\n' :: (s.data ++ ['\x60', '\x60', '\x60'])) =
      some (("<pre><code>").data ++ s.data ++ ("</code></pre>").data, []) := by
    rw [tryCodeBlock]
    simp only [List.takeWhile_cons, hword, Bool.false_eq_true, if_false, List.length_nil,
      List.drop_zero, hsplit]
    simp
  have hstage1 : stageCodeBlocks
      ('\x60' :: '\x60' :: '\x60' :: '\n' :: (s.data ++ ['\x60', '\x60', '\x60'])) =
      ("<pre><code>").data ++ s.data ++ ("</code></pre>").data := by
    unfold stageCodeBlocks
    exact scanWith_head_match_nil tryCodeBlock '\x60'
      ('\x60' :: '\x60' :: '\n' :: (s.data ++ ['\x60', '\x60', '\x60']))
      (("<pre><code>").data ++ s.data ++ ("</code></pre>").data) htry
  have hstage2 : stageInlineCode (("<pre><code>").data ++ s.data ++ ("</code></pre>").data) =
      ("<pre><code>").data ++ s.data ++ ("</code></pre>").data :=
    scanWith_of_no_trigger tryInlineCode (fun c => c = '\x60') tryInlineCode_none _ _
      (fun c hc => (hmid c hc).1)
  have hstage3 : stageBold (("<pre><code>").data ++ s.data ++ ("</code></pre>").data) =
      ("<pre><code>").data ++ s.data ++ ("</code></pre>").data :=
    scanWith_of_no_trigger tryBold (fun c => c = '*') tryBold_none _ _
      (fun c hc => (hmid c hc).2.1)
  have hstage4 : stageItalic (("<pre><code>").data ++ s.data ++ ("</code></pre>").data) =
      ("<pre><code>").data ++ s.data ++ ("</code></pre>").data :=
    scanWith_of_no_trigger tryItalic (fun c => c = '*') tryItalic_none _ _
      (fun c hc => (hmid c hc).2.1)
  have hstage5 : stageParagraphBreaks (("<pre><code>").data ++ s.data ++ ("</code></pre>").data) =
      ("<pre><code>").data ++ s.data ++ ("</code></pre>").data :=
    scanWith_of_no_trigger tryParagraphBreak (fun c => c = '\n') tryParagraphBreak_none _ _
      (fun c hc => (hmid c hc).2.2)
  have hstage6 : stageLineBreaks (("<pre><code>").data ++ s.data ++ ("</code></pre>").data) =
      ("<pre><code>").data ++ s.data ++ ("</code></pre>").data :=
    scanWith_of_no_trigger tryLineBreak (fun c => c = '\n') tryLineBreak_none _ _
      (fun c hc => (hmid c hc).2.2)
  have hwrap : paragraphWrap (("<pre><code>").data ++ s.data ++ ("</code></pre>").data) =
      ("<pre><code>").data ++ s.data ++ ("</code></pre>").data := by
    rfl
  apply String.ext
  simp only [formatAnswer, string_data_mk]
  rw [hdata]
  unfold formatAnswerL
  rw [hstage1, hstage2, hstage3, hstage4, hstage5, hstage6, hwrap]
  simp [String.data_append]

theorem formatAnswer_codeblock_verbatim_witness :
    formatAnswer ("```\n" ++ "x < y & z" ++ "```") =
      "<pre><code>" ++ "x < y & z" ++ "</code></pre>" :=
  formatAnswer_codeblock_verbatim ("x < y & z") (by decide)

/-- Auxiliary for the fuel-adequacy argument: a successful `splitFence`
returns a tail no longer than the input. -/
theorem splitFence_tail_le : ∀ (l content tail : List Char),
    splitFence l = some (content, tail) → tail.length ≤ l.length := by
  intro l
  induction l with
  | nil => intro c t h; simp [splitFence] at h
  | cons c rest ih =>
    intro content tail h
    rw [splitFence] at h
    split at h
    · simp only [Option.some.injEq, Prod.mk.injEq] at h
      rw [← h.2]
      simp [List.length_drop]
      omega
    · rcases Option.map_eq_some'.mp h with ⟨p, hsf, hp⟩
      have hle := ih p.1 p.2 (by rw [hsf])
      have : tail = p.2 := by
        have := congrArg Prod.snd hp
        simpa using this.symm
      rw [this]
      simp
      omega

theorem tryCodeBlock_consumes (c : Char) (rest rep r : List Char)
    (h : tryCodeBlock (c :: rest) = some (rep, r)) : r.length ≤ rest.length := by
  match rest with
  | [] => simp [tryCodeBlock] at h
  | [c2] => simp [tryCodeBlock] at h
  | c2 :: c3 :: rest3 =>
    rw [tryCodeBlock] at h
    split at h
    · simp only [] at h
      split at h
      · rename_i body heq
        split at h
        · rename_i content tail hsf
          simp only [Option.some.injEq, Prod.mk.injEq] at h
          have h1 := splitFence_tail_le body content tail hsf
          have h2 := congrArg List.length heq
          simp [List.length_drop] at h2
          rw [← h.2]
          simp
          omega
        · simp at h
      · simp at h
    · simp at h

theorem tryInlineCode_consumes (c : Char) (rest rep r : List Char)
    (h : tryInlineCode (c :: rest) = some (rep, r)) : r.length ≤ rest.length := by
  rw [tryInlineCode] at h
  split at h
  · simp only [] at h
    split at h
    · simp at h
    · split at h
      · rename_i tail heq
        simp only [Option.some.injEq, Prod.mk.injEq] at h
        have h2 := congrArg List.length heq
        simp [List.length_drop] at h2
        rw [← h.2]
        omega
      · simp at h
  · simp at h

theorem tryBold_consumes (c : Char) (rest rep r : List Char)
    (h : tryBold (c :: rest) = some (rep, r)) : r.length ≤ rest.length := by
  match rest with
  | [] => simp [tryBold] at h
  | c2 :: rest2 =>
    rw [tryBold] at h
    split at h
    · simp only [] at h
      split at h
      · simp at h
      · split at h
        · rename_i tail heq
          simp only [Option.some.injEq, Prod.mk.injEq] at h
          have h2 := congrArg List.length heq
          simp [List.length_drop] at h2
          rw [← h.2]
          simp
          omega
        · simp at h
    · simp at h

theorem tryItalic_consumes (c : Char) (rest rep r : List Char)
    (h : tryItalic (c :: rest) = some (rep, r)) : r.length ≤ rest.length := by
  rw [tryItalic] at h
  split at h
  · simp only [] at h
    split at h
    · simp at h
    · split at h
      · rename_i tail heq
        simp only [Option.some.injEq, Prod.mk.injEq] at h
        have h2 := congrArg List.length heq
        simp [List.length_drop] at h2
        rw [← h.2]
        omega
      · simp at h
  · simp at h

theorem tryParagraphBreak_consumes (c : Char) (rest rep r : List Char)
    (h : tryParagraphBreak (c :: rest) = some (rep, r)) : r.length ≤ rest.length := by
  match rest with
  | [] => simp [tryParagraphBreak] at h
  | c2 :: rest2 =>
    rw [tryParagraphBreak] at h
    split at h
    · simp only [Option.some.injEq, Prod.mk.injEq] at h
      rw [← h.2]
      simp
    · simp at h

theorem tryLineBreak_consumes (c : Char) (rest rep r : List Char)
    (h : tryLineBreak (c :: rest) = some (rep, r)) : r.length ≤ rest.length := by
  rw [tryLineBreak] at h
  split at h
  · simp only [Option.some.injEq, Prod.mk.injEq] at h
    rw [← h.2]
  · simp at h

theorem scanWith_fuel_congr (tryM : List Char → Option (List Char × List Char))
    (hM : ∀ c rest rep r, tryM (c :: rest) = some (rep, r) → r.length ≤ rest.length) :
    ∀ (f1 f2 : Nat) (l : List Char), l.length ≤ f1 → l.length ≤ f2 →
      scanWith tryM f1 l = scanWith tryM f2 l := by
  intro f1
  induction f1 with
  | zero =>
    intro f2 l h1 _
    have : l = [] := List.length_eq_zero.mp (Nat.le_zero.mp h1)
    subst this
    rw [scanWith_nil, scanWith_nil]
  | succ f ih =>
    intro f2 l h1 h2
    cases l with
    | nil => rw [scanWith_nil, scanWith_nil]
    | cons c rest =>
      cases f2 with
      | zero => simp at h2
      | succ g =>
        simp only [scanWith]
        cases hm : tryM (c :: rest) with
        | none =>
          simp only []
          have hr : rest.length ≤ f := by simp at h1; omega
          have hg : rest.length ≤ g := by simp at h2; omega
          rw [ih g rest hr hg]
        | some pr =>
          obtain ⟨rep, r⟩ := pr
          have hcons := hM c rest rep r hm
          have hr : r.length ≤ f := by simp at h1; omega
          have hg : r.length ≤ g := by simp at h2; omega
          simp only []
          rw [ih g r hr hg]

/-- The fuel passed by the stage wrappers (the input length) never runs
out: `scanWith` with any fuel at least the input length computes the same
result, for every matcher that consumes at least what it replaces. -/
theorem stageCodeBlocks_fuel (l : List Char) (f : Nat) (hf : l.length ≤ f) :
    stageCodeBlocks l = scanWith tryCodeBlock f l :=
  scanWith_fuel_congr tryCodeBlock tryCodeBlock_consumes l.length f l le_rfl hf

theorem stageInlineCode_fuel (l : List Char) (f : Nat) (hf : l.length ≤ f) :
    stageInlineCode l = scanWith tryInlineCode f l :=
  scanWith_fuel_congr tryInlineCode tryInlineCode_consumes l.length f l le_rfl hf

theorem stageBold_fuel (l : List Char) (f : Nat) (hf : l.length ≤ f) :
    stageBold l = scanWith tryBold f l :=
  scanWith_fuel_congr tryBold tryBold_consumes l.length f l le_rfl hf

theorem stageItalic_fuel (l : List Char) (f : Nat) (hf : l.length ≤ f) :
    stageItalic l = scanWith tryItalic f l :=
  scanWith_fuel_congr tryItalic tryItalic_consumes l.length f l le_rfl hf

theorem stageParagraphBreaks_fuel (l : List Char) (f : Nat) (hf : l.length ≤ f) :
    stageParagraphBreaks l = scanWith tryParagraphBreak f l :=
  scanWith_fuel_congr tryParagraphBreak tryParagraphBreak_consumes l.length f l le_rfl hf

theorem stageLineBreaks_fuel (l : List Char) (f : Nat) (hf : l.length ≤ f) :
    stageLineBreaks l = scanWith tryLineBreak f l :=
  scanWith_fuel_congr tryLineBreak tryLineBreak_consumes l.length f l le_rfl hf
